import Mathlib

/-!
Shallow embedding of the double-buffered PCM playback core of
src/demos/02_sdl3_play_pcm/sdl3_play_pcm.cc.

The embedding models:
  * the `AudioBuffer` record (data / size / pos, lines 10-14),
  * the global playback state: two buffers, two ready flags and the
    active buffer index (lines 22-24),
  * the SDL audio callback `AudioStreamCB` (lines 32-62), the consumer,
  * the buffer-filling section of the producer loop in `PlayPcmAudio`
    (lines 106-127) and its chunked file-read loop (lines 95-128).

Bytes are modelled as `Nat` (the source uses `uint8_t`; no arithmetic is
performed on byte values by the code under verification, only copies, so
no modular reduction is needed).  The interleaving of the producer and
the consumer is modelled by the step relation `Step`; each step is one
critical section of the source (the callback body, or one fill
iteration), which is the atomicity the mutexes of the source provide.
-/

namespace SdlPlayPcm

/-- One of the two PCM staging buffers (struct `AudioBuffer`, lines 10-14):
`data` is the backing byte array (allocated with `kPcmBufferSize` bytes,
zero-initialised by `make_unique`), `size` the number of bytes filled by
the producer, `pos` the number of bytes already consumed. -/
structure AudioBuffer where
  data : List Nat
  size : Nat
  pos : Nat
deriving DecidableEq

/-- Line 19: `kPcmBufferSize = 2 * 1920` bytes, the fixed allocation size
of each chunk and of the file read buffer. -/
def kPcmBufferSize : Nat := 2 * 1920

/-- Line 18: `kAudioVolume = 1.0f`, the linear volume factor handed to
`SDL_MixAudio`.  Modelled as the exact rational 1. -/
def kAudioVolume : ℚ := 1

/-- The shared mutable state of the player (lines 22-24): the two chunks
`buffers[2]`, the two flags `buffer_ready[2]` and `active_buffer_index`
(an index in {0,1}, modelled as a `Bool`: `false` is index 0). -/
structure SysState where
  buf0 : AudioBuffer
  buf1 : AudioBuffer
  ready0 : Bool
  ready1 : Bool
  active : Bool
deriving DecidableEq

/-- `buffers[i]`. -/
def SysState.bufAt (s : SysState) (i : Bool) : AudioBuffer :=
  if i then s.buf1 else s.buf0

/-- `buffer_ready[i]`. -/
def SysState.readyAt (s : SysState) (i : Bool) : Bool :=
  if i then s.ready1 else s.ready0

/-- Write `buffers[i]`. -/
def SysState.setBuf (s : SysState) (i : Bool) (b : AudioBuffer) : SysState :=
  if i then { s with buf1 := b } else { s with buf0 := b }

/-- Write `buffer_ready[i]`. -/
def SysState.setReady (s : SysState) (i : Bool) (r : Bool) : SysState :=
  if i then { s with ready1 := r } else { s with ready0 := r }

/-- Write `active_buffer_index`. -/
def SysState.setActive (s : SysState) (i : Bool) : SysState :=
  { s with active := i }

/-- `buffers[active_buffer_index]` (line 42). -/
def SysState.activeBuf (s : SysState) : AudioBuffer := s.bufAt s.active

/-- The observable effects of one invocation of the audio callback:
`copied` is `copy_size` (0 on the underrun path), `mixed` records each
call to the mixing primitive `SDL_MixAudio` as the pair (source bytes,
volume factor), `output` is the byte content of `mixed_buffer` handed to
`SDL_PutAudioStreamData`, and `notified` records whether
`cv.notify_one()` ran. -/
structure DrainResult where
  copied : Nat
  mixed : List (List Nat × ℚ)
  output : List Nat
  notified : Bool
deriving DecidableEq

/-- The bytes this invocation delivered to the mixing primitive:
the concatenation of the source buffers of its `SDL_MixAudio` calls. -/
def DrainResult.delivered (r : DrainResult) : List Nat :=
  (r.mixed.map Prod.fst).foldr (· ++ ·) []

/-- `AudioStreamCB` (lines 32-62), the consumer, invoked by SDL with a
requested byte count `additional` (`additional_amount`).
Line 33 zeroes `mixed_buffer` over `additional` bytes.  If the active
chunk is not ready (line 36) it notifies the producer, pushes the zeroed
buffer and returns (lines 37-39) without touching any chunk.  Otherwise
it computes `copy_size = min(additional_amount, size - pos)` (lines
43-44), calls `SDL_MixAudio` on the `copy_size` source bytes at offset
`pos` with volume `kAudioVolume` (line 47) — the modelled `output` is
those source bytes followed by the untouched zero tail of
`mixed_buffer`, since mixing into a zeroed buffer at volume 1.0 is the
identity on the source samples — then, under `buffer_change_mutex`,
advances `pos` (line 52) and, when `pos >= size` (line 53), clears the
ready flag, flips the active index and notifies the producer (lines
54-56).  Finally the `additional` output bytes are pushed (line 61). -/
def audioStreamCB (s : SysState) (additional : Nat) : SysState × DrainResult :=
  if s.readyAt s.active = false then
    (s, { copied := 0, mixed := [],
          output := List.replicate additional 0, notified := true })
  else
    let b := s.activeBuf
    let remain := b.size - b.pos
    let copy := min additional remain
    let src := (b.data.drop b.pos).take copy
    let pos' := b.pos + copy
    let s1 := s.setBuf s.active { b with pos := pos' }
    let s2 := if b.size ≤ pos' then
        (s1.setReady s.active false).setActive (!s.active)
      else s1
    (s2, { copied := copy, mixed := [(src, kAudioVolume)],
           output := src ++ List.replicate (additional - copy) 0,
           notified := decide (b.size ≤ pos') })

/-- `memcpy(buffers[idx].data.get(), file_buffer.get(), bytes_read)`
followed by the `size`/`pos` updates (lines 116-118 resp. 122-124): the
first `d.length` bytes of the backing array are overwritten, the tail
keeps its previous content; `size` becomes the byte count read and `pos`
is reset to 0. -/
def writeChunk (b : AudioBuffer) (d : List Nat) : AudioBuffer :=
  { data := d ++ b.data.drop d.length, size := d.length, pos := 0 }

/-- The fill section of the producer loop (lines 112-127), executed under
`buffer_change_mutex` after the condition wait: pick `idx =
active_buffer_index` (line 113); if `buffer_ready[idx]` is false fill
chunk `idx` and mark it ready (lines 114-119), else if the other flag is
false fill the other chunk (lines 120-126); a chunk whose ready flag is
true is never written. -/
def fillChunk (s : SysState) (d : List Nat) : SysState :=
  if s.readyAt s.active = false then
    (s.setBuf s.active (writeChunk (s.bufAt s.active) d)).setReady s.active true
  else if s.readyAt (!s.active) = false then
    (s.setBuf (!s.active) (writeChunk (s.bufAt (!s.active)) d)).setReady
      (!s.active) true
  else s

/-- The state at the start of playback: both backing arrays allocated
with `kPcmBufferSize` zero bytes (lines 87-88, `make_unique`
value-initialises), `size = pos = 0`, both ready flags false (line 24),
active index 0 (line 23). -/
def initBuffer : AudioBuffer :=
  { data := List.replicate kPcmBufferSize 0, size := 0, pos := 0 }

/-- Initial shared state (lines 22-24, 87-88). -/
def initState : SysState :=
  { buf0 := initBuffer, buf1 := initBuffer,
    ready0 := false, ready1 := false, active := false }

/-- One atomic step of either thread.  `drain` is one invocation of the
audio callback with any requested byte count.  `fill` is one iteration of
the producer after a successful `file.read`: the read returns between 1
and `kPcmBufferSize` bytes (lines 96-101: zero bytes breaks the loop
instead), and the fill section runs only after `cv.wait` has seen
`!buffer_ready[0] || !buffer_ready[1]` (line 108; the consumer never sets
a flag to true, so the predicate still holds when the fill lock is
taken). -/
inductive Step : SysState → SysState → Prop
  | drain (s : SysState) (n : Nat) : Step s (audioStreamCB s n).1
  | fill (s : SysState) (d : List Nat) (h1 : 0 < d.length)
      (h2 : d.length ≤ kPcmBufferSize)
      (h3 : s.ready0 = false ∨ s.ready1 = false) : Step s (fillChunk s d)

/-- States reachable from the initial state by any interleaving of
producer fills and consumer drains. -/
def Reachable (s : SysState) : Prop :=
  Relation.ReflTransGen Step initState s

/-- `file.read(file_buffer, kPcmBufferSize)` / `gcount` (lines 96-97):
the bytes extracted by one read of the input stream, and the remainder of
the stream. -/
def fileRead (file : List Nat) : List Nat × List Nat :=
  (file.take kPcmBufferSize, file.drop kPcmBufferSize)

/-- The sequence of chunks the producer read loop (lines 95-128) extracts
from the input stream: full `kPcmBufferSize` reads, then a final shorter
read if a nonempty remainder is left, stopping at the first zero-byte
read (line 98). -/
def chunksOf (l : List Nat) : List (List Nat) :=
  if h : l = [] then []
  else l.take kPcmBufferSize :: chunksOf (l.drop kPcmBufferSize)
termination_by l.length
decreasing_by
  have hl : 0 < l.length := List.length_pos.mpr h
  have hk : 0 < kPcmBufferSize := by decide
  simp only [List.length_drop]
  omega

/-- Line 19 comment: one callback request covers 10 ms, i.e. a quarter of
a `kPcmBufferSize` chunk: 960 bytes. -/
def kDrainRequest : Nat := kPcmBufferSize / 4

/-- `m` consecutive invocations of the audio callback, each requesting
`k` bytes; returns the final state and the concatenation of the bytes
delivered to the mixing primitive. -/
def drainN (s : SysState) (m k : Nat) : SysState × List Nat :=
  match m with
  | 0 => (s, [])
  | m + 1 =>
    let step := audioStreamCB s k
    let rest := drainN step.1 m k
    (rest.1, step.2.delivered ++ rest.2)

/-- The scheduled end-to-end run of the spec's test scenario: for each
chunk the producer reads, one fill followed by four callback invocations
of a quarter chunk each; returns the final state and the concatenation of
all bytes delivered to the mixing primitive. -/
def runSchedule (s : SysState) (cs : List (List Nat)) : SysState × List Nat :=
  match cs with
  | [] => (s, [])
  | c :: rest =>
    let d := drainN (fillChunk s c) 4 kDrainRequest
    let r := runSchedule d.1 rest
    (r.1, d.2 ++ r.2)

/-! Helper lemmas: the three control-flow branches of the callback. -/

/-- Lines 36-40: the underrun branch of the callback leaves the state
untouched and emits zeros. -/
lemma cb_unready (s : SysState) (n : Nat) (h : s.readyAt s.active = false) :
    audioStreamCB s n =
      (s, { copied := 0, mixed := [], output := List.replicate n 0,
            notified := true }) := by
  simp [audioStreamCB, h]

/-- Lines 42-61 when the copy exhausts the active chunk (line 53 test
true): `pos` advances to at least `size`, the ready flag clears, the
active index flips and the producer is notified. -/
lemma cb_ready_flip (s : SysState) (n : Nat) (h : s.readyAt s.active = true)
    (hex : s.activeBuf.size
        ≤ s.activeBuf.pos + min n (s.activeBuf.size - s.activeBuf.pos)) :
    audioStreamCB s n =
      (((s.setBuf s.active ⟨s.activeBuf.data, s.activeBuf.size,
            s.activeBuf.pos
              + min n (s.activeBuf.size - s.activeBuf.pos)⟩).setReady
          s.active false).setActive (!s.active),
       { copied := min n (s.activeBuf.size - s.activeBuf.pos),
         mixed := [((s.activeBuf.data.drop s.activeBuf.pos).take
             (min n (s.activeBuf.size - s.activeBuf.pos)), kAudioVolume)],
         output := (s.activeBuf.data.drop s.activeBuf.pos).take
             (min n (s.activeBuf.size - s.activeBuf.pos))
           ++ List.replicate (n - min n (s.activeBuf.size - s.activeBuf.pos)) 0,
         notified := true }) := by
  simp [audioStreamCB, h, hex]

/-- Lines 42-61 when bytes remain in the active chunk afterwards (line
53 test false): only `pos` advances. -/
lemma cb_ready_noflip (s : SysState) (n : Nat) (h : s.readyAt s.active = true)
    (hex : ¬ (s.activeBuf.size
        ≤ s.activeBuf.pos + min n (s.activeBuf.size - s.activeBuf.pos))) :
    audioStreamCB s n =
      (s.setBuf s.active ⟨s.activeBuf.data, s.activeBuf.size,
          s.activeBuf.pos
            + min n (s.activeBuf.size - s.activeBuf.pos)⟩,
       { copied := min n (s.activeBuf.size - s.activeBuf.pos),
         mixed := [((s.activeBuf.data.drop s.activeBuf.pos).take
             (min n (s.activeBuf.size - s.activeBuf.pos)), kAudioVolume)],
         output := (s.activeBuf.data.drop s.activeBuf.pos).take
             (min n (s.activeBuf.size - s.activeBuf.pos))
           ++ List.replicate (n - min n (s.activeBuf.size - s.activeBuf.pos)) 0,
         notified := false }) := by
  simp [audioStreamCB, h, hex]

/-! Theorems. -/

/-- C3: when both ready flags are false (so in particular the active
chunk is not ready), one consumer invocation copies 0 bytes from any
chunk, never calls the mixing primitive, leaves the whole shared state —
both chunks' `pos`, `size` and ready flags — unchanged, and the buffer
pushed to the output stream is entirely zero-filled silence of the
requested length. -/
theorem underrun_emits_silence (s : SysState) (n : Nat)
    (h0 : s.ready0 = false) (h1 : s.ready1 = false) :
    audioStreamCB s n =
      (s, { copied := 0, mixed := [],
            output := List.replicate n 0, notified := true }) := by
  have h : s.readyAt s.active = false := by
    cases ha : s.active <;> simp [SysState.readyAt, ha, h0, h1]
  simp [audioStreamCB, h]

/-- Witness for C3 at the initial state with a 4-byte request. -/
theorem underrun_emits_silence_witness :
    initState.ready0 = false ∧ initState.ready1 = false ∧
      audioStreamCB initState 4 =
        (initState, { copied := 0, mixed := [],
                      output := List.replicate 4 0, notified := true }) :=
  ⟨rfl, rfl, underrun_emits_silence initState 4 rfl rfl⟩

/-- C4: when the active chunk is ready, a consumer invocation requesting
`n` bytes copies exactly `min n (size - pos)` bytes, hands exactly those
chunk bytes (at offset `pos`) to the mixing primitive together with the
linear volume factor `kAudioVolume`, advances the active chunk's `pos` by
the copied amount leaving its `size`, its `data` and the other chunk
untouched, and — exactly when the new `pos` reaches `size` — clears the
active chunk's ready flag, flips the active index to the other slot and
notifies the producer's wait condition. -/
theorem drain_ready_spec (s : SysState) (n : Nat)
    (h : s.readyAt s.active = true) :
    (audioStreamCB s n).2.copied = min n (s.activeBuf.size - s.activeBuf.pos)
    ∧ ((audioStreamCB s n).1.bufAt s.active).pos
        = s.activeBuf.pos + (audioStreamCB s n).2.copied
    ∧ ((audioStreamCB s n).1.bufAt s.active).size = s.activeBuf.size
    ∧ ((audioStreamCB s n).1.bufAt s.active).data = s.activeBuf.data
    ∧ (audioStreamCB s n).1.bufAt (!s.active) = s.bufAt (!s.active)
    ∧ (audioStreamCB s n).1.readyAt (!s.active) = s.readyAt (!s.active)
    ∧ (audioStreamCB s n).2.mixed
        = [((s.activeBuf.data.drop s.activeBuf.pos).take
             ((audioStreamCB s n).2.copied), kAudioVolume)]
    ∧ (s.activeBuf.size ≤ s.activeBuf.pos + (audioStreamCB s n).2.copied ↔
        ((audioStreamCB s n).1.readyAt s.active = false
          ∧ (audioStreamCB s n).1.active = (!s.active)
          ∧ (audioStreamCB s n).2.notified = true)) := by
  obtain ⟨⟨d0, z0, p0⟩, ⟨d1, z1, p1⟩, r0, r1, a⟩ := s
  cases a <;> simp [SysState.readyAt] at h <;> subst h <;>
    simp [audioStreamCB, SysState.readyAt, SysState.activeBuf, SysState.bufAt,
      SysState.setBuf, SysState.setReady, SysState.setActive] <;>
    split <;>
    simp [SysState.readyAt, SysState.activeBuf, SysState.bufAt,
      SysState.setBuf, SysState.setReady, SysState.setActive] <;>
    omega

/-- A concrete mid-drain state used to witness C4: chunk 0 holds 3 bytes
of which 1 is already consumed, chunk 0 is ready and active. -/
def stateC4 : SysState :=
  { buf0 := { data := [5, 6, 7], size := 3, pos := 1 },
    buf1 := initBuffer, ready0 := true, ready1 := false, active := false }

/-- Witness for C4 at `stateC4` with a 1-byte request. -/
theorem drain_ready_spec_witness :
    stateC4.readyAt stateC4.active = true
    ∧ ((audioStreamCB stateC4 1).2.copied
        = min 1 (stateC4.activeBuf.size - stateC4.activeBuf.pos)
      ∧ ((audioStreamCB stateC4 1).1.bufAt stateC4.active).pos
          = stateC4.activeBuf.pos + (audioStreamCB stateC4 1).2.copied
      ∧ ((audioStreamCB stateC4 1).1.bufAt stateC4.active).size
          = stateC4.activeBuf.size
      ∧ ((audioStreamCB stateC4 1).1.bufAt stateC4.active).data
          = stateC4.activeBuf.data
      ∧ (audioStreamCB stateC4 1).1.bufAt (!stateC4.active)
          = stateC4.bufAt (!stateC4.active)
      ∧ (audioStreamCB stateC4 1).1.readyAt (!stateC4.active)
          = stateC4.readyAt (!stateC4.active)
      ∧ (audioStreamCB stateC4 1).2.mixed
          = [((stateC4.activeBuf.data.drop stateC4.activeBuf.pos).take
               ((audioStreamCB stateC4 1).2.copied), kAudioVolume)]
      ∧ (stateC4.activeBuf.size
            ≤ stateC4.activeBuf.pos + (audioStreamCB stateC4 1).2.copied ↔
          ((audioStreamCB stateC4 1).1.readyAt stateC4.active = false
            ∧ (audioStreamCB stateC4 1).1.active = (!stateC4.active)
            ∧ (audioStreamCB stateC4 1).2.notified = true))) :=
  ⟨rfl, drain_ready_spec stateC4 1 rfl⟩

/-- C5: one producer fill of the `d.length` bytes the read returned,
performed after the condition wait has seen a free chunk (hypothesis
`h`): if the active chunk is free it is the one written, otherwise the
other chunk — then necessarily free — is written; the chunk written
afterwards holds the read bytes with `size = d.length`, `pos = 0` and
`ready = true`; and a chunk whose ready flag is true is never written. -/
theorem fill_spec (s : SysState) (d : List Nat)
    (h : s.ready0 = false ∨ s.ready1 = false) :
    (s.readyAt s.active = false →
      ((fillChunk s d).bufAt s.active).data
          = d ++ (s.bufAt s.active).data.drop d.length
      ∧ ((fillChunk s d).bufAt s.active).size = d.length
      ∧ ((fillChunk s d).bufAt s.active).pos = 0
      ∧ (fillChunk s d).readyAt s.active = true
      ∧ (fillChunk s d).bufAt (!s.active) = s.bufAt (!s.active)
      ∧ (fillChunk s d).readyAt (!s.active) = s.readyAt (!s.active))
    ∧ (s.readyAt s.active = true →
      s.readyAt (!s.active) = false
      ∧ ((fillChunk s d).bufAt (!s.active)).data
          = d ++ (s.bufAt (!s.active)).data.drop d.length
      ∧ ((fillChunk s d).bufAt (!s.active)).size = d.length
      ∧ ((fillChunk s d).bufAt (!s.active)).pos = 0
      ∧ (fillChunk s d).readyAt (!s.active) = true
      ∧ (fillChunk s d).bufAt s.active = s.bufAt s.active)
    ∧ (s.ready0 = true → (fillChunk s d).buf0 = s.buf0)
    ∧ (s.ready1 = true → (fillChunk s d).buf1 = s.buf1) := by
  obtain ⟨⟨d0, z0, p0⟩, ⟨d1, z1, p1⟩, r0, r1, a⟩ := s
  cases a <;> cases r0 <;> cases r1 <;>
    simp_all [fillChunk, writeChunk, SysState.readyAt, SysState.activeBuf,
      SysState.bufAt, SysState.setBuf, SysState.setReady]

/-- Witness for C5 at the initial state with a 2-byte read. -/
theorem fill_spec_witness :
    (initState.ready0 = false ∨ initState.ready1 = false)
    ∧ ((initState.readyAt initState.active = false →
        ((fillChunk initState [3, 4]).bufAt initState.active).data
            = [3, 4] ++ (initState.bufAt initState.active).data.drop
                (List.length [3, 4])
        ∧ ((fillChunk initState [3, 4]).bufAt initState.active).size
            = List.length [3, 4]
        ∧ ((fillChunk initState [3, 4]).bufAt initState.active).pos = 0
        ∧ (fillChunk initState [3, 4]).readyAt initState.active = true
        ∧ (fillChunk initState [3, 4]).bufAt (!initState.active)
            = initState.bufAt (!initState.active)
        ∧ (fillChunk initState [3, 4]).readyAt (!initState.active)
            = initState.readyAt (!initState.active))
      ∧ (initState.readyAt initState.active = true →
        initState.readyAt (!initState.active) = false
        ∧ ((fillChunk initState [3, 4]).bufAt (!initState.active)).data
            = [3, 4] ++ (initState.bufAt (!initState.active)).data.drop
                (List.length [3, 4])
        ∧ ((fillChunk initState [3, 4]).bufAt (!initState.active)).size
            = List.length [3, 4]
        ∧ ((fillChunk initState [3, 4]).bufAt (!initState.active)).pos = 0
        ∧ (fillChunk initState [3, 4]).readyAt (!initState.active) = true
        ∧ (fillChunk initState [3, 4]).bufAt initState.active
            = initState.bufAt initState.active)
      ∧ (initState.ready0 = true →
          (fillChunk initState [3, 4]).buf0 = initState.buf0)
      ∧ (initState.ready1 = true →
          (fillChunk initState [3, 4]).buf1 = initState.buf1)) :=
  ⟨Or.inl rfl, fill_spec initState [3, 4] (Or.inl rfl)⟩

/-- Bounds of one chunk: the consumed prefix never passes the filled
prefix, which never passes the allocation size. -/
def ChunkOk (b : AudioBuffer) : Prop :=
  b.pos ≤ b.size ∧ b.size ≤ kPcmBufferSize

/-- The joint inductive invariant of the shared state: both chunks are in
bounds; if the non-active chunk is ready so is the active one; and a
chunk whose ready flag is false has been fully consumed. -/
def StateInv (s : SysState) : Prop :=
  ChunkOk s.buf0 ∧ ChunkOk s.buf1
  ∧ (s.readyAt (!s.active) = true → s.readyAt s.active = true)
  ∧ (s.ready0 = false → s.buf0.size ≤ s.buf0.pos)
  ∧ (s.ready1 = false → s.buf1.size ≤ s.buf1.pos)

lemma stateInv_init : StateInv initState := by
  unfold StateInv ChunkOk
  decide

lemma stateInv_step {s t : SysState} (hst : Step s t) (hs : StateInv s) :
    StateInv t := by
  cases hst with
  | drain n =>
    by_cases hr : s.readyAt s.active = false
    · rw [cb_unready s n hr]; exact hs
    · rw [Bool.not_eq_false] at hr
      obtain ⟨⟨hp0, hz0⟩, ⟨hp1, hz1⟩, hflag, hd0, hd1⟩ := hs
      by_cases hex : s.activeBuf.size
          ≤ s.activeBuf.pos + min n (s.activeBuf.size - s.activeBuf.pos)
      · rw [cb_ready_flip s n hr hex]
        cases ha : s.active <;>
          simp_all [StateInv, ChunkOk, SysState.activeBuf, SysState.setBuf,
            SysState.setReady, SysState.setActive, SysState.readyAt,
            SysState.bufAt] <;>
          omega
      · rw [cb_ready_noflip s n hr hex]
        cases ha : s.active <;>
          simp_all [StateInv, ChunkOk, SysState.activeBuf, SysState.setBuf,
            SysState.setReady, SysState.setActive, SysState.readyAt,
            SysState.bufAt] <;>
          omega
  | fill d h1 h2 h3 =>
    obtain ⟨⟨d0, z0, p0⟩, ⟨d1, z1, p1⟩, r0, r1, a⟩ := s
    cases a <;> cases r0 <;> cases r1 <;>
      simp_all [fillChunk, writeChunk, StateInv, ChunkOk, SysState.readyAt,
        SysState.activeBuf, SysState.bufAt, SysState.setBuf,
        SysState.setReady]

lemma reachable_inv (s : SysState) (h : Reachable s) : StateInv s := by
  induction h with
  | refl => exact stateInv_init
  | tail _ hstep ih => exact stateInv_step hstep ih

/-- C2: in every state reachable under any interleaving of producer
fills and consumer drains, each of the two chunks satisfies
`0 ≤ pos ≤ size ≤ kPcmBufferSize`, where `kPcmBufferSize` is the fixed
allocation size. -/
theorem reachable_bounds (s : SysState) (h : Reachable s) :
    (0 ≤ s.buf0.pos ∧ s.buf0.pos ≤ s.buf0.size
      ∧ s.buf0.size ≤ kPcmBufferSize)
    ∧ (0 ≤ s.buf1.pos ∧ s.buf1.pos ≤ s.buf1.size
      ∧ s.buf1.size ≤ kPcmBufferSize) := by
  obtain ⟨⟨hb0, hb0c⟩, ⟨hb1, hb1c⟩, -⟩ := reachable_inv s h
  exact ⟨⟨Nat.zero_le _, hb0, hb0c⟩, ⟨Nat.zero_le _, hb1, hb1c⟩⟩

/-- Witness for C2 at the initial state. -/
theorem reachable_bounds_witness :
    Reachable initState
    ∧ ((0 ≤ initState.buf0.pos ∧ initState.buf0.pos ≤ initState.buf0.size
        ∧ initState.buf0.size ≤ kPcmBufferSize)
      ∧ (0 ≤ initState.buf1.pos ∧ initState.buf1.pos ≤ initState.buf1.size
        ∧ initState.buf1.size ≤ kPcmBufferSize)) :=
  ⟨Relation.ReflTransGen.refl,
    reachable_bounds initState Relation.ReflTransGen.refl⟩

/-- C10: in every reachable state, if the non-active chunk is ready then
so is the active chunk; consequently the consumer's underrun check on the
active chunk alone is sufficient: whenever it emits silence because the
active chunk is not ready, both ready flags are false and both chunks are
fully consumed — no chunk anywhere holds unconsumed data. -/
theorem underrun_check_sufficient (s : SysState) (h : Reachable s) :
    (s.readyAt (!s.active) = true → s.readyAt s.active = true)
    ∧ (s.readyAt s.active = false →
        s.ready0 = false ∧ s.ready1 = false
        ∧ s.buf0.size ≤ s.buf0.pos ∧ s.buf1.size ≤ s.buf1.pos) := by
  obtain ⟨-, -, hflag, hd0, hd1⟩ := reachable_inv s h
  refine ⟨hflag, fun hna => ?_⟩
  have hnb : s.readyAt (!s.active) = false := by
    cases hr : s.readyAt (!s.active)
    · rfl
    · rw [hflag hr] at hna; exact absurd hna (by simp)
  have h0 : s.ready0 = false := by
    cases ha : s.active
    · simpa [SysState.readyAt, ha] using hna
    · simpa [SysState.readyAt, ha] using hnb
  have h1 : s.ready1 = false := by
    cases ha : s.active
    · simpa [SysState.readyAt, ha] using hnb
    · simpa [SysState.readyAt, ha] using hna
  exact ⟨h0, h1, hd0 h0, hd1 h1⟩

/-- Witness for C10 at the initial state. -/
theorem underrun_check_sufficient_witness :
    Reachable initState
    ∧ ((initState.readyAt (!initState.active) = true →
          initState.readyAt initState.active = true)
      ∧ (initState.readyAt initState.active = false →
          initState.ready0 = false ∧ initState.ready1 = false
          ∧ initState.buf0.size ≤ initState.buf0.pos
          ∧ initState.buf1.size ≤ initState.buf1.pos)) :=
  ⟨Relation.ReflTransGen.refl,
    underrun_check_sufficient initState Relation.ReflTransGen.refl⟩

/-! Accessor and setter algebra for `SysState`. -/

lemma active_setActive (s : SysState) (i : Bool) :
    (s.setActive i).active = i := rfl

lemma readyAt_setActive (s : SysState) (i j : Bool) :
    (s.setActive i).readyAt j = s.readyAt j := rfl

lemma bufAt_setActive (s : SysState) (i j : Bool) :
    (s.setActive i).bufAt j = s.bufAt j := rfl

lemma active_setReady (s : SysState) (i r : Bool) :
    (s.setReady i r).active = s.active := by
  cases i <;> rfl

lemma readyAt_setReady_self (s : SysState) (i r : Bool) :
    (s.setReady i r).readyAt i = r := by
  cases i <;> rfl

lemma readyAt_setReady_not (s : SysState) (i r : Bool) :
    (s.setReady i r).readyAt (!i) = s.readyAt (!i) := by
  cases i <;> rfl

lemma bufAt_setReady_eq (s : SysState) (i r : Bool) (j : Bool) :
    (s.setReady i r).bufAt j = s.bufAt j := by
  cases i <;> cases j <;> rfl

lemma active_setBuf (s : SysState) (i : Bool) (b : AudioBuffer) :
    (s.setBuf i b).active = s.active := by
  cases i <;> rfl

lemma readyAt_setBuf (s : SysState) (i : Bool) (b : AudioBuffer) (j : Bool) :
    (s.setBuf i b).readyAt j = s.readyAt j := by
  cases i <;> cases j <;> rfl

lemma bufAt_setBuf_self (s : SysState) (i : Bool) (b : AudioBuffer) :
    (s.setBuf i b).bufAt i = b := by
  cases i <;> rfl

lemma bufAt_setBuf_not (s : SysState) (i : Bool) (b : AudioBuffer) :
    (s.setBuf i b).bufAt (!i) = s.bufAt (!i) := by
  cases i <;> rfl

lemma ready01_of_readyAt (s : SysState) (i : Bool)
    (h1 : s.readyAt i = false) (h2 : s.readyAt (!i) = false) :
    s.ready0 = false ∧ s.ready1 = false := by
  cases i
  · exact ⟨h1, h2⟩
  · exact ⟨h2, h1⟩

/-! Draining a whole chunk over several callback invocations. -/

/-- While the active chunk is not ready every invocation takes the
underrun branch: the state never changes and nothing reaches the mixing
primitive. -/
lemma drainN_unready (s : SysState) (m k : Nat)
    (h : s.readyAt s.active = false) :
    drainN s m k = (s, []) := by
  induction m with
  | zero => rfl
  | succ m ih =>
    simp [drainN, cb_unready s k h, DrainResult.delivered, ih]

/-- Invocations of the callback requesting `k > 0` bytes each, starting
with a ready active chunk with `pos < size` and the other chunk not
ready: after `m` invocations with `m * k` covering the remaining bytes,
both flags are false and the bytes delivered to the mixing primitive are
exactly the unconsumed slice of the active chunk. -/
lemma drainN_exhausts (k : Nat) (hk : 0 < k) :
    ∀ (m : Nat) (s : SysState), s.readyAt s.active = true →
      s.readyAt (!s.active) = false →
      s.activeBuf.pos < s.activeBuf.size →
      s.activeBuf.size - s.activeBuf.pos ≤ m * k →
      (drainN s m k).1.ready0 = false ∧ (drainN s m k).1.ready1 = false
      ∧ (drainN s m k).1.active = (!s.active)
      ∧ (drainN s m k).2
          = (s.activeBuf.data.drop s.activeBuf.pos).take
              (s.activeBuf.size - s.activeBuf.pos) := by
  intro m
  induction m with
  | zero =>
    intro s h1 h2 h3 h4
    exact absurd h4 (by simp; omega)
  | succ m ih =>
    intro s h1 h2 h3 h4
    by_cases hex : s.activeBuf.size
        ≤ s.activeBuf.pos + min k (s.activeBuf.size - s.activeBuf.pos)
    · have hmin : min k (s.activeBuf.size - s.activeBuf.pos)
          = s.activeBuf.size - s.activeBuf.pos := by omega
      have hstep := cb_ready_flip s k h1 hex
      have hsa : ((((s.setBuf s.active ⟨s.activeBuf.data, s.activeBuf.size,
            s.activeBuf.pos
              + min k (s.activeBuf.size - s.activeBuf.pos)⟩).setReady
            s.active false).setActive (!s.active))).readyAt s.active
          = false := by
        rw [readyAt_setActive, readyAt_setReady_self]
      have hsb : ((((s.setBuf s.active ⟨s.activeBuf.data, s.activeBuf.size,
            s.activeBuf.pos
              + min k (s.activeBuf.size - s.activeBuf.pos)⟩).setReady
            s.active false).setActive (!s.active))).readyAt (!s.active)
          = false := by
        rw [readyAt_setActive, readyAt_setReady_not, readyAt_setBuf]
        exact h2
      have hact : ((((s.setBuf s.active ⟨s.activeBuf.data, s.activeBuf.size,
            s.activeBuf.pos
              + min k (s.activeBuf.size - s.activeBuf.pos)⟩).setReady
            s.active false).setActive (!s.active))).active = !s.active :=
        active_setActive _ _
      have hrest := drainN_unready (((s.setBuf s.active
            ⟨s.activeBuf.data, s.activeBuf.size,
              s.activeBuf.pos
                + min k (s.activeBuf.size - s.activeBuf.pos)⟩).setReady
            s.active false).setActive (!s.active)) m k (by rw [hact]; exact hsb)
      obtain ⟨hr0, hr1⟩ := ready01_of_readyAt _ s.active hsa hsb
      refine ⟨?_, ?_, ?_, ?_⟩ <;>
        simp only [drainN, hstep, hrest, DrainResult.delivered, List.map_cons,
          List.map_nil, List.foldr_cons, List.foldr_nil, List.append_nil]
      · exact hr0
      · exact hr1
      · exact hact
      · rw [hmin]
    · have hmin : min k (s.activeBuf.size - s.activeBuf.pos) = k := by omega
      have hstep := cb_ready_noflip s k h1 hex
      have hex' : ¬ (s.activeBuf.size ≤ s.activeBuf.pos + k) := by
        rw [hmin] at hex; exact hex
      have hmul : (m + 1) * k = m * k + k := Nat.succ_mul m k
      have hact : (s.setBuf s.active ⟨s.activeBuf.data, s.activeBuf.size,
            s.activeBuf.pos
              + min k (s.activeBuf.size - s.activeBuf.pos)⟩).active
          = s.active := active_setBuf _ _ _
      have hbuf : (s.setBuf s.active ⟨s.activeBuf.data, s.activeBuf.size,
            s.activeBuf.pos
              + min k (s.activeBuf.size - s.activeBuf.pos)⟩).activeBuf
          = ⟨s.activeBuf.data, s.activeBuf.size,
              s.activeBuf.pos
                + min k (s.activeBuf.size - s.activeBuf.pos)⟩ := by
        rw [SysState.activeBuf, hact, bufAt_setBuf_self]
      obtain ⟨hr0, hr1, hactive, hdel⟩ := ih (s.setBuf s.active
          ⟨s.activeBuf.data, s.activeBuf.size,
            s.activeBuf.pos + min k (s.activeBuf.size - s.activeBuf.pos)⟩)
        (by rw [hact, readyAt_setBuf]; exact h1)
        (by rw [hact, readyAt_setBuf]; exact h2)
        (by
          rw [hbuf]
          show s.activeBuf.pos + min k (s.activeBuf.size - s.activeBuf.pos)
            < s.activeBuf.size
          rw [hmin]
          omega)
        (by
          rw [hbuf]
          show s.activeBuf.size
              - (s.activeBuf.pos + min k (s.activeBuf.size - s.activeBuf.pos))
            ≤ m * k
          rw [hmin]
          omega)
      rw [hbuf] at hdel
      refine ⟨?_, ?_, ?_, ?_⟩ <;>
        simp only [drainN, hstep, DrainResult.delivered, List.map_cons,
          List.map_nil, List.foldr_cons, List.foldr_nil, List.append_nil]
      · exact hr0
      · exact hr1
      · rw [hactive, hact]
      · rw [hdel, hmin]
        rw [show s.activeBuf.size - s.activeBuf.pos
              = k + (s.activeBuf.size - (s.activeBuf.pos + k)) by omega,
          List.take_add]
        congr 1
        rw [List.drop_drop]

/-- When the active chunk is free (lines 114-119) the fill writes it. -/
lemma fillChunk_active_eq (s : SysState) (d : List Nat)
    (hra : s.readyAt s.active = false) :
    fillChunk s d
      = (s.setBuf s.active (writeChunk (s.bufAt s.active) d)).setReady
          s.active true := by
  rw [fillChunk, if_pos hra]

/-- With both flags down, the active chunk is free. -/
lemma readyAt_active_false (s : SysState)
    (h0 : s.ready0 = false) (h1 : s.ready1 = false) :
    s.readyAt s.active = false := by
  cases ha : s.active <;> simp [SysState.readyAt, ha, h0, h1]

/-- With both flags down, the non-active chunk is free too. -/
lemma readyAt_inactive_false (s : SysState)
    (h0 : s.ready0 = false) (h1 : s.ready1 = false) :
    s.readyAt (!s.active) = false := by
  cases ha : s.active <;> simp [SysState.readyAt, ha, h0, h1]

/-- One scheduled cycle — a fill of a nonempty chunk `c` of at most
`kPcmBufferSize` bytes into an all-free state, followed by four
quarter-chunk callback requests — delivers exactly `c` to the mixing
primitive, ends with both flags down again and flips the active index. -/
lemma cycle_spec (s : SysState) (c : List Nat)
    (h0 : s.ready0 = false) (h1 : s.ready1 = false)
    (hc : 0 < c.length) (hcap : c.length ≤ kPcmBufferSize) :
    (drainN (fillChunk s c) 4 kDrainRequest).1.ready0 = false
    ∧ (drainN (fillChunk s c) 4 kDrainRequest).1.ready1 = false
    ∧ (drainN (fillChunk s c) 4 kDrainRequest).1.active = (!s.active)
    ∧ (drainN (fillChunk s c) 4 kDrainRequest).2 = c := by
  have hra := readyAt_active_false s h0 h1
  have hrb := readyAt_inactive_false s h0 h1
  have hfill := fillChunk_active_eq s c hra
  have hact : ((s.setBuf s.active (writeChunk (s.bufAt s.active) c)).setReady
      s.active true).active = s.active := by
    rw [active_setReady, active_setBuf]
  have hab : ((s.setBuf s.active (writeChunk (s.bufAt s.active) c)).setReady
      s.active true).activeBuf = writeChunk (s.bufAt s.active) c := by
    rw [SysState.activeBuf, hact, bufAt_setReady_eq, bufAt_setBuf_self]
  have h4k : 4 * kDrainRequest = kPcmBufferSize := by decide
  obtain ⟨hr0, hr1, hactive, hdel⟩ := drainN_exhausts kDrainRequest (by decide)
      4 ((s.setBuf s.active (writeChunk (s.bufAt s.active) c)).setReady
          s.active true)
    (by rw [hact, readyAt_setReady_self])
    (by rw [hact, readyAt_setReady_not, readyAt_setBuf]; exact hrb)
    (by rw [hab]; exact hc)
    (by rw [hab]; show c.length - 0 ≤ 4 * kDrainRequest; omega)
  rw [hfill]
  refine ⟨hr0, hr1, by rw [hactive, hact], ?_⟩
  rw [hdel, hab, writeChunk]
  simp [List.take_left]

/-- The producer read loop produces no chunk exactly on the empty
stream. -/
lemma chunksOf_nil : chunksOf [] = [] := by
  rw [chunksOf]
  rfl

/-- One iteration of the producer read loop on a nonempty stream. -/
lemma chunksOf_cons (l : List Nat) (h : l ≠ []) :
    chunksOf l = l.take kPcmBufferSize :: chunksOf (l.drop kPcmBufferSize) := by
  rw [chunksOf, dif_neg h]

/-- The scheduled run of the whole read loop from any all-free state
delivers the input stream byte for byte (fuel-indexed induction on the
stream length). -/
lemma runSchedule_chunksOf_aux :
    ∀ (n : Nat) (l : List Nat), l.length ≤ n →
      ∀ s : SysState, s.ready0 = false → s.ready1 = false →
        (runSchedule s (chunksOf l)).2 = l := by
  intro n
  induction n with
  | zero =>
    intro l hl s h0 h1
    have hnil : l = [] := List.length_eq_zero.mp (Nat.le_zero.mp hl)
    subst hnil
    rw [chunksOf_nil]
    rfl
  | succ n ih =>
    intro l hl s h0 h1
    by_cases hnil : l = []
    · subst hnil
      rw [chunksOf_nil]
      rfl
    · have hkpos : 0 < kPcmBufferSize := by decide
      have hlen : 0 < l.length := List.length_pos.mpr hnil
      have hc : 0 < (l.take kPcmBufferSize).length := by
        rw [List.length_take]
        omega
      have hcap : (l.take kPcmBufferSize).length ≤ kPcmBufferSize := by
        rw [List.length_take]
        omega
      obtain ⟨hr0, hr1, -, hdel⟩ :=
        cycle_spec s (l.take kPcmBufferSize) h0 h1 hc hcap
      rw [chunksOf_cons l hnil]
      show (drainN (fillChunk s (l.take kPcmBufferSize)) 4 kDrainRequest).2
          ++ (runSchedule
              (drainN (fillChunk s (l.take kPcmBufferSize)) 4 kDrainRequest).1
              (chunksOf (l.drop kPcmBufferSize))).2
        = l
      rw [hdel,
        ih (l.drop kPcmBufferSize) (by rw [List.length_drop]; omega) _ hr0 hr1]
      exact List.take_append_drop kPcmBufferSize l

/-- C1: for every input byte stream, under the spec's schedule — the
producer fills chunk by chunk and the consumer drains each chunk in four
quarter-chunk requests — the concatenation of all bytes the consumer
callback delivers to the mixing primitive, in order, equals the original
input stream exactly: no byte duplicated, none dropped.  Underrun
invocations push only the zeroed mix buffer and hand nothing to the
mixing primitive, so the emitted silence is excluded by construction. -/
theorem end_to_end_byte_exact (input : List Nat) :
    (runSchedule initState (chunksOf input)).2 = input :=
  runSchedule_chunksOf_aux input.length input (Nat.le_refl _) initState rfl rfl

/-- One complete fill-and-drain cycle from an all-free state: a fill of a
nonempty chunk followed by a single callback request covering the whole
chunk flips the active index and leaves both flags down. -/
lemma cb_fill_drain (s : SysState) (c : List Nat) (n : Nat)
    (h0 : s.ready0 = false) (h1 : s.ready1 = false)
    (hc : 0 < c.length) (hn : c.length ≤ n) :
    (audioStreamCB (fillChunk s c) n).1.active = (!s.active)
    ∧ (audioStreamCB (fillChunk s c) n).1.ready0 = false
    ∧ (audioStreamCB (fillChunk s c) n).1.ready1 = false := by
  have hra := readyAt_active_false s h0 h1
  have hrb := readyAt_inactive_false s h0 h1
  have hfill := fillChunk_active_eq s c hra
  have hact : ((s.setBuf s.active (writeChunk (s.bufAt s.active) c)).setReady
      s.active true).active = s.active := by
    rw [active_setReady, active_setBuf]
  have hab : ((s.setBuf s.active (writeChunk (s.bufAt s.active) c)).setReady
      s.active true).activeBuf = writeChunk (s.bufAt s.active) c := by
    rw [SysState.activeBuf, hact, bufAt_setReady_eq, bufAt_setBuf_self]
  obtain ⟨hr0, hr1, hactive, -⟩ := drainN_exhausts n (by omega) 1
      ((s.setBuf s.active (writeChunk (s.bufAt s.active) c)).setReady
        s.active true)
    (by rw [hact, readyAt_setReady_self])
    (by rw [hact, readyAt_setReady_not, readyAt_setBuf]; exact hrb)
    (by rw [hab]; exact hc)
    (by rw [hab]; show c.length - 0 ≤ 1 * n; omega)
  have hone : (audioStreamCB ((s.setBuf s.active
        (writeChunk (s.bufAt s.active) c)).setReady s.active true) n).1
      = (drainN ((s.setBuf s.active
          (writeChunk (s.bufAt s.active) c)).setReady s.active true) 1 n).1 :=
    rfl
  rw [hfill]
  refine ⟨?_, ?_, ?_⟩
  · rw [hone, hactive, hact]
  · rw [hone]; exact hr0
  · rw [hone]; exact hr1

/-- C9: starting from an all-free state with the active index at 0, one
complete fill-and-drain cycle of a chunk leaves the active index at 1,
and a second complete cycle returns it to 0 — the index alternates
between the two slots, flipped at chunk exhaustion. -/
theorem active_index_alternates (s : SysState) (c1 c2 : List Nat)
    (n1 n2 : Nat) (h0 : s.ready0 = false) (h1 : s.ready1 = false)
    (ha : s.active = false)
    (hc1 : 0 < c1.length) (hn1 : c1.length ≤ n1)
    (hc2 : 0 < c2.length) (hn2 : c2.length ≤ n2) :
    (audioStreamCB (fillChunk s c1) n1).1.active = true
    ∧ (audioStreamCB
        (fillChunk (audioStreamCB (fillChunk s c1) n1).1 c2) n2).1.active
      = false := by
  obtain ⟨ha1, hr0, hr1⟩ := cb_fill_drain s c1 n1 h0 h1 hc1 hn1
  have ha1' : (audioStreamCB (fillChunk s c1) n1).1.active = true := by
    simp [ha1, ha]
  obtain ⟨ha2, -, -⟩ := cb_fill_drain _ c2 n2 hr0 hr1 hc2 hn2
  refine ⟨ha1', ?_⟩
  simp [ha2, ha1']

/-- Witness for C9: two one-byte chunks played from the initial state. -/
theorem active_index_alternates_witness :
    (initState.ready0 = false ∧ initState.ready1 = false
      ∧ initState.active = false
      ∧ 0 < [1].length ∧ [1].length ≤ 1
      ∧ 0 < [2].length ∧ [2].length ≤ 1)
    ∧ ((audioStreamCB (fillChunk initState [1]) 1).1.active = true
      ∧ (audioStreamCB
          (fillChunk (audioStreamCB (fillChunk initState [1]) 1).1 [2])
          1).1.active = false) :=
  ⟨⟨rfl, rfl, rfl, by decide, by decide, by decide, by decide⟩,
    active_index_alternates initState [1] [2] 1 1 rfl rfl rfl
      (by decide) (by decide) (by decide) (by decide)⟩

/-- C7 counterexample: a 100-byte input — a single partially-unfillable
trailing chunk, since 100 < kPcmBufferSize — is NOT dropped: its bytes
are stored into chunk 0 (size 100, ready flag set) and the scheduled run
delivers exactly those bytes to the mixing primitive. -/
theorem partial_chunk_dropped_counterexample :
    (fillChunk initState (List.replicate 100 7)).buf0.size = 100
    ∧ (fillChunk initState (List.replicate 100 7)).ready0 = true
    ∧ (runSchedule initState (chunksOf (List.replicate 100 7))).2
        = List.replicate 100 7 := by
  refine ⟨by decide, by decide, ?_⟩
  exact runSchedule_chunksOf_aux 100 (List.replicate 100 7) (by decide)
    initState rfl rfl

/-- C7 (amended): the producer does not drop a partially-unfillable
trailing chunk.  A final short read of `n` bytes (`0 < n <
kPcmBufferSize`) is stored into the free active chunk — `size = n`,
`pos = 0`, the read bytes at the front of the backing array — its ready
flag is set, and the consumer's four quarter-chunk requests deliver
exactly those `n` bytes to the mixing primitive. -/
theorem partial_trailing_chunk_stored_and_played (s : SysState)
    (c : List Nat) (h0 : s.ready0 = false) (h1 : s.ready1 = false)
    (hc : 0 < c.length) (hcap : c.length < kPcmBufferSize) :
    ((fillChunk s c).bufAt s.active).size = c.length
    ∧ ((fillChunk s c).bufAt s.active).pos = 0
    ∧ ((fillChunk s c).bufAt s.active).data
        = c ++ (s.bufAt s.active).data.drop c.length
    ∧ (fillChunk s c).readyAt s.active = true
    ∧ (drainN (fillChunk s c) 4 kDrainRequest).2 = c := by
  have hra := readyAt_active_false s h0 h1
  have hfill := fillChunk_active_eq s c hra
  obtain ⟨-, -, -, hdel⟩ := cycle_spec s c h0 h1 hc (le_of_lt hcap)
  refine ⟨?_, ?_, ?_, ?_, hdel⟩
  · rw [hfill, bufAt_setReady_eq, bufAt_setBuf_self]
    rfl
  · rw [hfill, bufAt_setReady_eq, bufAt_setBuf_self]
    rfl
  · rw [hfill, bufAt_setReady_eq, bufAt_setBuf_self]
    rfl
  · rw [hfill, readyAt_setReady_self]

/-- Witness for the amended C7: a single 9 byte. -/
theorem partial_trailing_chunk_stored_and_played_witness :
    (initState.ready0 = false ∧ initState.ready1 = false
      ∧ 0 < [9].length ∧ [9].length < kPcmBufferSize)
    ∧ (((fillChunk initState [9]).bufAt initState.active).size = [9].length
      ∧ ((fillChunk initState [9]).bufAt initState.active).pos = 0
      ∧ ((fillChunk initState [9]).bufAt initState.active).data
          = [9] ++ (initState.bufAt initState.active).data.drop [9].length
      ∧ (fillChunk initState [9]).readyAt initState.active = true
      ∧ (drainN (fillChunk initState [9]) 4 kDrainRequest).2 = [9]) :=
  ⟨⟨rfl, rfl, by decide, by decide⟩,
    partial_trailing_chunk_stored_and_played initState [9] rfl rfl
      (by decide) (by decide)⟩

/-- C8: a zero-byte read happens exactly when the stream is exhausted and
ends the read loop as the normal end-of-stream signal — no chunk is
produced and no error path exists — while a short nonzero read of `n <
kPcmBufferSize` bytes returns the whole remainder, is forwarded to the
buffers as a single smaller chunk, and the fill stores it with
`size = n` and the ready flag set. -/
theorem short_and_zero_reads (file : List Nat) (s : SysState)
    (h0 : s.ready0 = false) (h1 : s.ready1 = false) :
    ((fileRead file).1.length = 0 ↔ file = [])
    ∧ (file = [] → chunksOf file = [])
    ∧ (0 < file.length → file.length < kPcmBufferSize →
        (fileRead file).1 = file
        ∧ chunksOf file = [file]
        ∧ ((fillChunk s file).bufAt s.active).size = file.length
        ∧ (fillChunk s file).readyAt s.active = true) := by
  have hra := readyAt_active_false s h0 h1
  have hkpos : 0 < kPcmBufferSize := by decide
  refine ⟨?_, ?_, ?_⟩
  · show (file.take kPcmBufferSize).length = 0 ↔ file = []
    rw [List.length_take]
    constructor
    · intro hz
      exact List.length_eq_zero.mp (by omega)
    · intro he
      subst he
      rfl
  · intro he
    subst he
    exact chunksOf_nil
  · intro hp hcap
    have hfile : file.take kPcmBufferSize = file :=
      List.take_of_length_le (le_of_lt hcap)
    have hdropnil : file.drop kPcmBufferSize = [] := by
      apply List.eq_nil_of_length_eq_zero
      rw [List.length_drop]
      omega
    have hnil : file ≠ [] := by
      intro he
      subst he
      simp at hp
    refine ⟨hfile, ?_, ?_, ?_⟩
    · rw [chunksOf_cons file hnil, hfile, hdropnil, chunksOf_nil]
    · rw [fillChunk_active_eq s file hra, bufAt_setReady_eq,
        bufAt_setBuf_self]
      rfl
    · rw [fillChunk_active_eq s file hra, readyAt_setReady_self]

/-- Witness for C8: a two-byte file against the initial state. -/
theorem short_and_zero_reads_witness :
    (initState.ready0 = false ∧ initState.ready1 = false)
    ∧ (((fileRead [9, 9]).1.length = 0 ↔ ([9, 9] : List Nat) = [])
      ∧ (([9, 9] : List Nat) = [] → chunksOf [9, 9] = [])
      ∧ (0 < ([9, 9] : List Nat).length
          → ([9, 9] : List Nat).length < kPcmBufferSize →
          (fileRead [9, 9]).1 = [9, 9]
          ∧ chunksOf [9, 9] = [[9, 9]]
          ∧ ((fillChunk initState [9, 9]).bufAt initState.active).size
              = ([9, 9] : List Nat).length
          ∧ (fillChunk initState [9, 9]).readyAt initState.active = true)) :=
  ⟨⟨rfl, rfl⟩, short_and_zero_reads [9, 9] initState rfl rfl⟩

/-! Lock scope model for the two code paths (C6). -/

/-- The two mutexes of the source (line 28), or no lock held. -/
inductive LockCtx
  | noLock
  | cvMutex
  | bufferChangeMutex
deriving DecidableEq

/-- The operations the two code paths perform, in source order. -/
inductive OpKind
  | memsetMixedBuffer
  | checkActiveReady
  | mixChunkIntoBuffer
  | advancePos
  | clearReadyAndFlip
  | notifyProducer
  | putStreamData
  | waitFreeChunk
  | readActiveIndex
  | checkReadyFlag
  | memcpyChunkData
  | setSizePosReady
deriving DecidableEq

/-- One statement of the source: which operation, which lock is held
while it executes, and whether it is a bulk copy of chunk data
(O(chunk size) work rather than O(1)). -/
structure Action where
  op : OpKind
  lock : LockCtx
  chunkBulkCopy : Bool
deriving DecidableEq

/-- The consumer path of `AudioStreamCB` with a ready active chunk
(lines 33-61), in program order: the memset (line 33), the ready check
(line 36) and the `SDL_MixAudio` bulk copy of chunk bytes (line 47) run
before `buffer_change_mutex` is taken (line 51); the `pos` advance, the
flag clear with index flip and the notify (lines 52-56) run under it; the
stream push (line 61) runs after the unlock (line 58). -/
def consumerReadyActions : List Action :=
  [⟨OpKind.memsetMixedBuffer, LockCtx.noLock, false⟩,
   ⟨OpKind.checkActiveReady, LockCtx.noLock, false⟩,
   ⟨OpKind.mixChunkIntoBuffer, LockCtx.noLock, true⟩,
   ⟨OpKind.advancePos, LockCtx.bufferChangeMutex, false⟩,
   ⟨OpKind.clearReadyAndFlip, LockCtx.bufferChangeMutex, false⟩,
   ⟨OpKind.notifyProducer, LockCtx.bufferChangeMutex, false⟩,
   ⟨OpKind.putStreamData, LockCtx.noLock, false⟩]

/-- The producer fill path of `PlayPcmAudio` (lines 106-127), in program
order: the predicate wait under `cv_mutex` (lines 107-109), then — all
inside the `buffer_change_mutex` section (lines 112-127) — the
active-index read (line 113), the flag check (line 114 or 120), the bulk
`memcpy` of the chunk bytes (line 116 or 122) and the
`size`/`pos`/ready updates (lines 117-119 or 123-125). -/
def producerFillActions : List Action :=
  [⟨OpKind.waitFreeChunk, LockCtx.cvMutex, false⟩,
   ⟨OpKind.readActiveIndex, LockCtx.bufferChangeMutex, false⟩,
   ⟨OpKind.checkReadyFlag, LockCtx.bufferChangeMutex, false⟩,
   ⟨OpKind.memcpyChunkData, LockCtx.bufferChangeMutex, true⟩,
   ⟨OpKind.setSizePosReady, LockCtx.bufferChangeMutex, false⟩]

/-- `buffer_change_mutex` is the only lock both threads take: the
callback locks it at line 51 and the producer at line 112.  `cv_mutex`
is taken only by the producer (line 107): `cv.notify_one` (lines 37 and
56) does not acquire it. -/
def contendedByBothThreads : LockCtx → Bool
  | LockCtx.bufferChangeMutex => true
  | _ => false

/-- C6 as stated: no bulk copy of chunk data is ever performed while
holding a lock the other thread can contend on. -/
def bulkCopyNeverUnderContendedLock : Prop :=
  ∀ a ∈ consumerReadyActions ++ producerFillActions,
    a.chunkBulkCopy = true → contendedByBothThreads a.lock = false

/-- C6 counterexample: the claim as stated is false — the producer's
`memcpy` of the chunk bytes (line 116/122) executes while holding
`buffer_change_mutex`, which the consumer callback contends on at line
51. -/
theorem bulk_copy_under_lock_counterexample :
    ¬ bulkCopyNeverUnderContendedLock := by
  unfold bulkCopyNeverUnderContendedLock
  decide

/-- C6 (amended): on the consumer path the claim holds — every consumer
action under `buffer_change_mutex` is an O(1) state mutation and the
consumer's bulk chunk copy runs under no lock — but the producer performs
its bulk `memcpy` of chunk data while holding `buffer_change_mutex`,
which the consumer contends on. -/
theorem consumer_lock_scope_o1 :
    (∀ a ∈ consumerReadyActions,
      a.lock = LockCtx.bufferChangeMutex → a.chunkBulkCopy = false)
    ∧ (∀ a ∈ consumerReadyActions,
      a.chunkBulkCopy = true → a.lock = LockCtx.noLock)
    ∧ (∃ a ∈ producerFillActions,
      a.chunkBulkCopy = true ∧ a.lock = LockCtx.bufferChangeMutex) := by
  decide

end SdlPlayPcm
